import Mathlib

/-!
# libretro-common VFS implementation: a verification development

Shallow embedding of `libretro-common/vfs/vfs_implementation.c` (the build with
`HAVE_MMAP`, not `_WIN32`).  The handle structure is a Lean structure, the C
functions are Lean functions that take the host state and the handle and return
the C return value together with the new host state and the new handle.
A null handle is `none`.  Undefined behaviour of the C program (dereferencing a
null pointer, copying outside a mapping) is the outcome `fault`.

Machine integers are `Nat`/`Int` with explicit reduction modulo `2 ^ 64`.
-/

namespace Vfs

/-! ## Machine integers -/

/-- Conversion of an integer to `uint64_t`. -/
def to_uint64 (i : Int) : Nat := (i % 2 ^ 64).toNat

/-- Conversion of an integer to a signed type of `w` bits (two's complement). -/
def to_signed (w : Nat) (i : Int) : Int := (i + 2 ^ (w - 1)) % 2 ^ w - 2 ^ (w - 1)

/-- Conversion of an integer to `int64_t`. -/
def to_int64 (i : Int) : Int := to_signed 64 i

/-- Sum of two `uint64_t` values. -/
def add_u64 (a b : Nat) : Nat := (a + b) % 2 ^ 64

/-- Difference of two `uint64_t` values. -/
def sub_u64 (a b : Nat) : Nat := (a + 2 ^ 64 - b % 2 ^ 64) % 2 ^ 64

/-! ## Outcome of a C call -/

/-- Result of running a C function: it returns, or it runs into undefined behaviour. -/
inductive Outcome (α : Type) where
  | done (a : α)
  | fault
  deriving DecidableEq, Repr

/-! ## Constants -/

/-- The constant of the source: `#define RFILE_HINT_UNBUFFERED (1 << 8)`. -/
def RFILE_HINT_UNBUFFERED : Nat := 1 <<< 8

/-- Value of `~m` as an `unsigned` (32 bits). -/
def not_u32 (m : Nat) : Nat := 2 ^ 32 - 1 - m % 2 ^ 32

/-- The `whence` value `SEEK_SET` of `stdio.h`. -/
def SEEK_SET : Int := 0

/-- The `whence` value `SEEK_CUR` of `stdio.h`. -/
def SEEK_CUR : Int := 1

/-- The `whence` value `SEEK_END` of `stdio.h`. -/
def SEEK_END : Int := 2

/-! ## The handle -/

/-- Value of the pointer `mapped`. -/
inductive MapPtr where
  | NULL
  | MAP_FAILED
  | region (bytes : List Nat)
  deriving DecidableEq, Repr

/-- The handle `struct libretro_vfs_implementation_file`.  `buf` and `fp` record
whether the pointer is non-null; the state of the stdio stream is in the host. -/
structure libretro_vfs_implementation_file where
  fd : Int
  hints : Nat
  size : Int
  mappos : Nat
  mapsize : Nat
  buf : Bool
  fp : Bool
  mapped : MapPtr
  deriving DecidableEq, Repr

/-- Result of `calloc(1, sizeof(*stream))`: every field zero. -/
def calloc_stream : libretro_vfs_implementation_file :=
  { fd := 0, hints := 0, size := 0, mappos := 0, mapsize := 0,
    buf := false, fp := false, mapped := MapPtr.NULL }

/-! ## The host: one file, one descriptor, one stdio stream

A model of the C library and POSIX calls the source makes, for the file at the
path given to `open`. -/

/-- Access mode of an open descriptor or stream. -/
inductive Access where
  | rdonly
  | wronly
  | rdwr
  deriving DecidableEq, Repr

/-- State of the host. -/
structure Host where
  /-- Bytes of the file at the path, `none` when there is no such file. -/
  file : Option (List Nat)
  /-- Number of the open descriptor, if any. -/
  fd : Option Int
  fd_acc : Access
  /-- File offset of the descriptor. -/
  offset : Nat
  /-- Whether the stdio stream is open. -/
  fp : Bool
  fp_acc : Access
  /-- Position indicator of the stdio stream. -/
  fpos : Nat
  /-- Error indicator of the stdio stream. -/
  ferr : Bool
  deriving DecidableEq, Repr

/-- Host with the given file and nothing open. -/
def Host.closed (file : Option (List Nat)) : Host :=
  { file := file, fd := none, fd_acc := Access.rdonly, offset := 0,
    fp := false, fp_acc := Access.rdonly, fpos := 0, ferr := false }

/-- Length of the file. -/
def Host.length (h : Host) : Nat := (h.file.getD []).length

/-- Position asked for by `(offset, whence)`, `none` for an unknown `whence`. -/
def seek_target (whence offset : Int) (cur size : Nat) : Option Int :=
  if whence = SEEK_SET then some offset
  else if whence = SEEK_CUR then some (cur + offset)
  else if whence = SEEK_END then some (size + offset)
  else none

/-! ## What the headers and the platform fix

`libretro.h` (the `RETRO_VFS_FILE_ACCESS_*` constants) is not among the sources,
so the constants are parameters; so are the width of `long`, the meaning of the
permission bits that `open_impl` ors into the `open` flags, whether `mmap`
succeeds, and what the host's `lseek` and `fseek` do with a request: which requests
they accept (values of `whence`, limits on the offset) differs from host to host. -/

/-- Constants of `libretro.h` and behaviour of the platform. -/
structure Platform where
  RETRO_VFS_FILE_ACCESS_READ : Nat
  RETRO_VFS_FILE_ACCESS_WRITE : Nat
  RETRO_VFS_FILE_ACCESS_READ_WRITE : Nat
  RETRO_VFS_FILE_ACCESS_UPDATE_EXISTING : Nat
  RETRO_VFS_FILE_ACCESS_HINT_MEMORY_MAP : Nat
  /-- Number of bits of `long`. -/
  LONG_BITS : Nat
  /-- Whether `S_IRUSR | S_IWUSR`, taken as `open` flags, contain `O_EXCL`. -/
  perm_bits_excl : Bool
  /-- Whether `mmap` of the given length succeeds. -/
  mmap_ok : Nat → Bool
  /-- The host's `lseek(fd, offset, whence)`: the value it returns (the new offset, or
  a negative value on failure) and the host afterwards. -/
  os_lseek : Host → Int → Int → Int → Int × Host
  /-- The host's `fseek(fp, offset, whence)` on an open stream: whether it succeeds,
  and the host afterwards. -/
  os_fseek : Host → Int → Int → Bool × Host

/-- An `lseek` that knows `SEEK_SET`, `SEEK_CUR` and `SEEK_END` and has no limit on the
file size: the new offset, or -1 (bad descriptor, other `whence`, negative or
unrepresentable result) with the offset left alone. -/
def posix_lseek (h : Host) (fd : Int) (offset whence : Int) : Int × Host :=
  if h.fd ≠ some fd then (-1, h)
  else match seek_target whence offset h.offset h.length with
    | some t => if 0 ≤ t ∧ t < 2 ^ 63 then (t, { h with offset := t.toNat }) else (-1, h)
    | none => (-1, h)

/-- An `fseek` with the same rules, for a `long` of `long_bits` bits. -/
def posix_fseek (long_bits : Nat) (h : Host) (offset whence : Int) : Bool × Host :=
  match seek_target whence offset h.fpos h.length with
  | some t =>
    if 0 ≤ t ∧ t < 2 ^ (long_bits - 1) then (true, { h with fpos := t.toNat })
    else (false, h)
  | none => (false, h)

/-- POSIX `lseek`, as the host implements it. -/
def lseek (P : Platform) (h : Host) (fd : Int) (offset whence : Int) : Int × Host :=
  P.os_lseek h fd offset whence

/-- C `fseek`, as the host implements it: 0 on success, -1 otherwise; a null or closed
stream is undefined. -/
def fseek (P : Platform) (h : Host) (fp : Bool) (offset whence : Int) : Outcome (Int × Host) :=
  if fp = false ∨ h.fp = false then Outcome.fault
  else Outcome.done
    (if (P.os_fseek h offset whence).1 then 0 else -1, (P.os_fseek h offset whence).2)

/-- C `ftell`: the position, or -1 when it does not fit in a `long`. -/
def ftell (P : Platform) (h : Host) (fp : Bool) : Outcome Int :=
  if fp = false ∨ h.fp = false then Outcome.fault
  else if (h.fpos : Int) < 2 ^ (P.LONG_BITS - 1) then Outcome.done h.fpos
  else Outcome.done (-1)

/-- Bytes `data` stored into `file` from position `pos` on (a gap is zero filled). -/
def store_at (file : List Nat) (pos : Nat) (data : List Nat) : List Nat :=
  (file ++ List.replicate (pos - file.length) 0).take pos ++ data
    ++ file.drop (pos + data.length)

/-- POSIX `read`: the bytes from the offset on, at most `len` of them. -/
def sys_read (h : Host) (fd : Int) (len : Nat) : Int × Host × List Nat :=
  if h.fd ≠ some fd ∨ h.fd_acc = Access.wronly then (-1, h, [])
  else
    let bytes := ((h.file.getD []).drop h.offset).take len
    (bytes.length, { h with offset := h.offset + bytes.length }, bytes)

/-- POSIX `write` of the first `len` bytes of the caller's buffer `s`. -/
def sys_write (h : Host) (fd : Int) (s : List Nat) (len : Nat) : Outcome (Int × Host) :=
  if h.fd ≠ some fd ∨ h.fd_acc = Access.rdonly then Outcome.done (-1, h)
  else if s.length < len then Outcome.fault
  else Outcome.done
    (len, { h with file := some (store_at (h.file.getD []) h.offset (s.take len)),
                   offset := h.offset + len })

/-- C `fread(s, 1, len, fp)`. -/
def fread (h : Host) (fp : Bool) (len : Nat) : Outcome (Int × Host × List Nat) :=
  if fp = false ∨ h.fp = false then Outcome.fault
  else if h.fp_acc = Access.wronly then Outcome.done (0, { h with ferr := true }, [])
  else
    let bytes := ((h.file.getD []).drop h.fpos).take len
    Outcome.done (bytes.length, { h with fpos := h.fpos + bytes.length }, bytes)

/-- C `fwrite(s, 1, len, fp)`. -/
def fwrite (h : Host) (fp : Bool) (s : List Nat) (len : Nat) : Outcome (Int × Host) :=
  if fp = false ∨ h.fp = false then Outcome.fault
  else if h.fp_acc = Access.rdonly then Outcome.done (0, { h with ferr := true })
  else if s.length < len then Outcome.fault
  else Outcome.done
    (len, { h with file := some (store_at (h.file.getD []) h.fpos (s.take len)),
                   fpos := h.fpos + len })

/-- Mode strings of the source. -/
inductive ModeStr where
  | MODE_STR_READ_UNBUF
  | MODE_STR_WRITE_UNBUF
  | MODE_STR_WRITE_PLUS
  deriving DecidableEq, Repr

/-- Values of `flags` the source computes (`0` is `O_RDONLY`). -/
inductive OpenFlags where
  | O_RDONLY
  | O_WRONLY_CREAT_TRUNC_PERM
  | O_RDWR
  deriving DecidableEq, Repr

/-- C `fopen`: "rb" needs the file; "wb" and "w+" create or truncate it. -/
def fopen (h : Host) (m : ModeStr) : Bool × Host :=
  match m with
  | ModeStr.MODE_STR_READ_UNBUF =>
    if h.file.isSome then (true, { h with fp := true, fp_acc := Access.rdonly, fpos := 0, ferr := false })
    else (false, h)
  | ModeStr.MODE_STR_WRITE_UNBUF =>
    (true, { h with file := some [], fp := true, fp_acc := Access.wronly, fpos := 0, ferr := false })
  | ModeStr.MODE_STR_WRITE_PLUS =>
    (true, { h with file := some [], fp := true, fp_acc := Access.rdwr, fpos := 0, ferr := false })

/-- POSIX `open(path, flags, 0)`: the new descriptor (3, the lowest one free when
the standard streams are open), or -1. -/
def sys_open (P : Platform) (h : Host) (flags : OpenFlags) : Int × Host :=
  match flags with
  | OpenFlags.O_RDONLY =>
    if h.file.isSome then (3, { h with fd := some 3, fd_acc := Access.rdonly, offset := 0 })
    else (-1, h)
  | OpenFlags.O_WRONLY_CREAT_TRUNC_PERM =>
    if P.perm_bits_excl ∧ h.file.isSome then (-1, h)
    else (3, { h with file := some [], fd := some 3, fd_acc := Access.wronly, offset := 0 })
  | OpenFlags.O_RDWR =>
    if h.file.isSome then (3, { h with fd := some 3, fd_acc := Access.rdwr, offset := 0 })
    else (-1, h)

/-- POSIX `mmap(0, len, PROT_READ, MAP_SHARED, fd, 0)`. -/
def mmap (P : Platform) (h : Host) (len : Nat) : MapPtr :=
  if P.mmap_ok len then MapPtr.region ((h.file.getD []).take len) else MapPtr.MAP_FAILED

/-- C `fclose`. -/
def fclose (h : Host) : Host := { h with fp := false }

/-- POSIX `close`. -/
def sys_close (h : Host) (fd : Int) : Host :=
  if h.fd = some fd then { h with fd := none } else h

/-- C `ferror`. -/
def ferror (h : Host) (fp : Bool) : Outcome Int :=
  if fp = false ∨ h.fp = false then Outcome.fault
  else Outcome.done (if h.ferr then 1 else 0)

/-- C `memcpy(s, &mapped[pos], len)`: the bytes copied; reading through a null or
failed mapping, or outside the mapping, is undefined. -/
def memcpy_from (mapped : MapPtr) (pos len : Nat) : Outcome (List Nat) :=
  match mapped with
  | MapPtr.region bytes =>
    if pos + len ≤ bytes.length then Outcome.done ((bytes.drop pos).take len)
    else Outcome.fault
  | _ => Outcome.fault

/-! ## The functions of `vfs_implementation.c` -/

/-- What a call returns: the C return value, the host and the handle afterwards. -/
structure Ret where
  ret : Int
  host : Host
  stream : Option libretro_vfs_implementation_file
  deriving DecidableEq, Repr

/-- What `read` returns: as `Ret`, and the bytes stored into the caller's buffer. -/
structure ReadRet where
  ret : Int
  host : Host
  stream : Option libretro_vfs_implementation_file
  out : List Nat
  deriving DecidableEq, Repr

/-- Sequencing of calls: a fault ends the run. -/
def Outcome.bind {α β : Type} (x : Outcome α) (f : α → Outcome β) : Outcome β :=
  match x with
  | Outcome.done a => f a
  | Outcome.fault => Outcome.fault

/-- Reading a field through a pointer: undefined for the null pointer. -/
def deref {α : Type} (p : Option α) : Outcome α :=
  match p with
  | some a => Outcome.done a
  | none => Outcome.fault

/-- The function `retro_vfs_file_seek_internal` (lines 115-168). -/
def retro_vfs_file_seek_internal (P : Platform) (h : Host)
    (data : Option libretro_vfs_implementation_file) (offset whence : Int) : Outcome Ret :=
  match data with
  | none => Outcome.done { ret := -1, host := h, stream := none }
  | some stream =>
    if stream.hints &&& RFILE_HINT_UNBUFFERED = 0 then
      match fseek P h stream.fp (to_signed P.LONG_BITS offset) whence with
      | Outcome.fault => Outcome.fault
      | Outcome.done (r, h1) => Outcome.done { ret := r, host := h1, stream := some stream }
    else if stream.mapped ≠ MapPtr.NULL
        ∧ stream.hints &&& P.RETRO_VFS_FILE_ACCESS_HINT_MEMORY_MAP ≠ 0 then
      if whence = SEEK_SET then
        if offset < 0 then Outcome.done { ret := -1, host := h, stream := some stream }
        else Outcome.done { ret := to_int64 (to_uint64 offset), host := h,
                            stream := some { stream with mappos := to_uint64 offset } }
      else if whence = SEEK_CUR then
        if (offset < 0 ∧ add_u64 stream.mappos (to_uint64 offset) > stream.mappos)
            ∨ (offset > 0 ∧ add_u64 stream.mappos (to_uint64 offset) < stream.mappos) then
          Outcome.done { ret := -1, host := h, stream := some stream }
        else Outcome.done
          { ret := to_int64 (add_u64 stream.mappos (to_uint64 offset)), host := h,
            stream := some { stream with mappos := add_u64 stream.mappos (to_uint64 offset) } }
      else if whence = SEEK_END then
        if add_u64 stream.mapsize (to_uint64 offset) < stream.mapsize then
          Outcome.done { ret := -1, host := h, stream := some stream }
        else Outcome.done
          { ret := to_int64 (add_u64 stream.mapsize (to_uint64 offset)), host := h,
            stream := some { stream with mappos := add_u64 stream.mapsize (to_uint64 offset) } }
      else Outcome.done { ret := to_int64 stream.mappos, host := h, stream := some stream }
    else
      if (lseek P h stream.fd offset whence).1 < 0 then
        Outcome.done { ret := -1, host := (lseek P h stream.fd offset whence).2, stream := some stream }
      else
        Outcome.done { ret := 0, host := (lseek P h stream.fd offset whence).2, stream := some stream }

/-- The function `retro_vfs_file_seek_impl` (lines 397-402). -/
def retro_vfs_file_seek_impl (P : Platform) (h : Host)
    (data : Option libretro_vfs_implementation_file) (offset whence : Int) : Outcome Ret :=
  retro_vfs_file_seek_internal P h data offset whence

/-- The function `retro_vfs_file_tell_impl` (lines 375-395). -/
def retro_vfs_file_tell_impl (P : Platform) (h : Host)
    (data : Option libretro_vfs_implementation_file) : Outcome Ret :=
  match data with
  | none => Outcome.done { ret := -1, host := h, stream := none }
  | some stream =>
    if stream.hints &&& RFILE_HINT_UNBUFFERED = 0 then
      match ftell P h stream.fp with
      | Outcome.fault => Outcome.fault
      | Outcome.done r => Outcome.done { ret := r, host := h, stream := some stream }
    else if stream.mapped ≠ MapPtr.NULL
        ∧ stream.hints &&& P.RETRO_VFS_FILE_ACCESS_HINT_MEMORY_MAP ≠ 0 then
      Outcome.done { ret := to_int64 stream.mappos, host := h, stream := some stream }
    else
      if (lseek P h stream.fd 0 SEEK_CUR).1 < 0 then
        Outcome.done { ret := -1, host := (lseek P h stream.fd 0 SEEK_CUR).2, stream := some stream }
      else
        Outcome.done { ret := 0, host := (lseek P h stream.fd 0 SEEK_CUR).2, stream := some stream }

/-- The function `retro_vfs_file_size_impl` (lines 366-373). -/
def retro_vfs_file_size_impl (data : Option libretro_vfs_implementation_file) : Int :=
  match data with
  | none => 0
  | some stream => stream.size

/-- The function `retro_vfs_file_close_impl` (lines 330-357); the handle is freed. -/
def retro_vfs_file_close_impl (h : Host)
    (data : Option libretro_vfs_implementation_file) : Int × Host :=
  match data with
  | none => (-1, h)
  | some stream =>
    let h1 := if stream.hints &&& RFILE_HINT_UNBUFFERED = 0 then
        (if stream.fp then fclose h else h)
      else h
    let h2 := if stream.fd > 0 then sys_close h1 stream.fd else h1
    (0, h2)

/-- The function `retro_vfs_file_error_impl` (lines 359-364): `stream->fp` is read
without a test of `stream`. -/
def retro_vfs_file_error_impl (h : Host)
    (data : Option libretro_vfs_implementation_file) : Outcome Int :=
  (deref data).bind fun stream => ferror h stream.fp

/-- The function `retro_vfs_file_read_impl` (lines 404-434); `s` tells whether the
caller's buffer is non-null. -/
def retro_vfs_file_read_impl (P : Platform) (h : Host)
    (data : Option libretro_vfs_implementation_file) (s : Bool) (len : Nat) : Outcome ReadRet :=
  match data with
  | none => Outcome.done { ret := -1, host := h, stream := none, out := [] }
  | some stream =>
    if s = false then Outcome.done { ret := -1, host := h, stream := some stream, out := [] }
    else if stream.hints &&& RFILE_HINT_UNBUFFERED = 0 then
      match fread h stream.fp len with
      | Outcome.fault => Outcome.fault
      | Outcome.done (r, h1, bytes) =>
        Outcome.done { ret := to_int64 r, host := h1, stream := some stream, out := bytes }
    else if stream.hints &&& P.RETRO_VFS_FILE_ACCESS_HINT_MEMORY_MAP ≠ 0 then
      if stream.mappos > stream.mapsize then
        Outcome.done { ret := -1, host := h, stream := some stream, out := [] }
      else
        let len1 := if add_u64 stream.mappos len > stream.mapsize
          then sub_u64 stream.mapsize stream.mappos else len
        match memcpy_from stream.mapped stream.mappos len1 with
        | Outcome.fault => Outcome.fault
        | Outcome.done bytes =>
          Outcome.done { ret := to_int64 len1, host := h,
                         stream := some { stream with mappos := add_u64 stream.mappos len1 },
                         out := bytes }
    else
      Outcome.done { ret := (sys_read h stream.fd len).1, host := (sys_read h stream.fd len).2.1,
                     stream := some stream, out := (sys_read h stream.fd len).2.2 }

/-- The function `retro_vfs_file_write_impl` (lines 436-454); `s` is the caller's buffer. -/
def retro_vfs_file_write_impl (P : Platform) (h : Host)
    (data : Option libretro_vfs_implementation_file) (s : List Nat) (len : Nat) : Outcome Ret :=
  match data with
  | none => Outcome.done { ret := -1, host := h, stream := none }
  | some stream =>
    if stream.hints &&& RFILE_HINT_UNBUFFERED = 0 then
      match fwrite h stream.fp s len with
      | Outcome.fault => Outcome.fault
      | Outcome.done (r, h1) => Outcome.done { ret := to_int64 r, host := h1, stream := some stream }
    else if stream.hints &&& P.RETRO_VFS_FILE_ACCESS_HINT_MEMORY_MAP ≠ 0 then
      Outcome.done { ret := -1, host := h, stream := some stream }
    else
      match sys_write h stream.fd s len with
      | Outcome.fault => Outcome.fault
      | Outcome.done (r, h1) => Outcome.done { ret := r, host := h1, stream := some stream }

/-- The function `retro_vfs_file_flush_impl` (lines 456-463); `fflush` of a null
stream flushes every stream, and buffering is not part of the host state. -/
def retro_vfs_file_flush_impl (h : Host)
    (data : Option libretro_vfs_implementation_file) : Int × Host :=
  match data with
  | none => (-1, h)
  | some _ => (0, h)

/-- Effective hints computed by `retro_vfs_file_open_impl` (lines 196-203). -/
def open_hints (P : Platform) (mode hints : Nat) : Nat :=
  if hints &&& P.RETRO_VFS_FILE_ACCESS_HINT_MEMORY_MAP ≠ 0
      ∧ mode = P.RETRO_VFS_FILE_ACCESS_READ then
    hints ||| RFILE_HINT_UNBUFFERED
  else
    hints &&& not_u32 P.RETRO_VFS_FILE_ACCESS_HINT_MEMORY_MAP

/-- The `switch (mode)` of `retro_vfs_file_open_impl` (lines 205-238): the values
of `mode_str` (`none` is `NULL`) and `flags` it leaves; `hints` are the effective hints. -/
def open_switch (P : Platform) (mode hints : Nat) : Option ModeStr × OpenFlags :=
  if mode = P.RETRO_VFS_FILE_ACCESS_READ then
    (if hints &&& RFILE_HINT_UNBUFFERED = 0 then some ModeStr.MODE_STR_READ_UNBUF else none,
     OpenFlags.O_RDONLY)
  else if mode = P.RETRO_VFS_FILE_ACCESS_WRITE then
    if hints &&& RFILE_HINT_UNBUFFERED = 0 then
      (some ModeStr.MODE_STR_WRITE_UNBUF, OpenFlags.O_RDONLY)
    else (none, OpenFlags.O_WRONLY_CREAT_TRUNC_PERM)
  else if mode = P.RETRO_VFS_FILE_ACCESS_READ_WRITE then
    if hints &&& RFILE_HINT_UNBUFFERED = 0 then
      (some ModeStr.MODE_STR_WRITE_PLUS, OpenFlags.O_RDONLY)
    else (none, OpenFlags.O_RDWR)
  else (none, OpenFlags.O_RDONLY)

/-- What `open` returns: the handle (`none` is `NULL`) and the host afterwards. -/
structure OpenRet where
  handle : Option libretro_vfs_implementation_file
  host : Host
  deriving DecidableEq, Repr

/-- The label `error` of `retro_vfs_file_open_impl` (lines 325-327). -/
def open_error (h : Host) (stream : libretro_vfs_implementation_file) : Outcome OpenRet :=
  Outcome.done { handle := none, host := (retro_vfs_file_close_impl h (some stream)).2 }

/-- The end of `retro_vfs_file_open_impl` (lines 316-323): the size is what `tell`
returns after the seek to the end. -/
def open_finish (P : Platform) (h : Host) (stream : libretro_vfs_implementation_file) :
    Outcome OpenRet :=
  (retro_vfs_file_seek_internal P h (some stream) 0 SEEK_SET).bind fun r1 =>
  (retro_vfs_file_seek_internal P r1.host r1.stream 0 SEEK_END).bind fun r2 =>
  (retro_vfs_file_tell_impl P r2.host r2.stream).bind fun r3 =>
  (retro_vfs_file_seek_internal P r3.host
      (r3.stream.map fun st => { st with size := r3.ret }) 0 SEEK_SET).bind fun r4 =>
  Outcome.done { handle := r4.stream, host := r4.host }

/-- The memory-map block of `retro_vfs_file_open_impl` (lines 295-313), entered
when the memory-map hint is set after the descriptor is open. -/
def open_mmap (P : Platform) (h : Host) (stream : libretro_vfs_implementation_file) :
    Outcome OpenRet :=
  let stream1 := { stream with mappos := 0, mapped := MapPtr.NULL }
  (retro_vfs_file_seek_internal P h (some stream1) 0 SEEK_END).bind fun r1 =>
  let stream2 := { stream1 with mapsize := to_uint64 r1.ret }
  if stream2.mapsize = 2 ^ 64 - 1 then open_error r1.host stream2
  else
    (retro_vfs_file_seek_internal P r1.host (some stream2) 0 SEEK_SET).bind fun r2 =>
    let stream3 := { stream2 with mapped := mmap P r2.host stream2.mapsize }
    let stream4 := if stream3.mapped = MapPtr.MAP_FAILED then
        { stream3 with hints :=
            stream3.hints &&& not_u32 P.RETRO_VFS_FILE_ACCESS_HINT_MEMORY_MAP }
      else stream3
    open_finish P r2.host stream4

/-- The function `retro_vfs_file_open_impl` (lines 180-328), `calloc` succeeding;
`h.file` is the file at `path`. -/
def retro_vfs_file_open_impl (P : Platform) (h : Host) (mode hints : Nat) : Outcome OpenRet :=
  let stream := { calloc_stream with hints := open_hints P mode hints }
  let mode_str := (open_switch P mode stream.hints).1
  let flags := (open_switch P mode stream.hints).2
  match mode_str with
  | some m =>
    if stream.hints &&& RFILE_HINT_UNBUFFERED = 0 then
      if (fopen h m).1 = false then open_error (fopen h m).2 stream
      else open_finish P (fopen h m).2 { stream with fp := true, buf := true }
    else
      if (sys_open P h flags).1 = -1 then
        open_error (sys_open P h flags).2 { stream with fd := (sys_open P h flags).1 }
      else if stream.hints &&& P.RETRO_VFS_FILE_ACCESS_HINT_MEMORY_MAP ≠ 0 then
        open_mmap P (sys_open P h flags).2 { stream with fd := (sys_open P h flags).1 }
      else open_finish P (sys_open P h flags).2 { stream with fd := (sys_open P h flags).1 }
  | none =>
    if (sys_open P h flags).1 = -1 then
      open_error (sys_open P h flags).2 { stream with fd := (sys_open P h flags).1 }
    else if stream.hints &&& P.RETRO_VFS_FILE_ACCESS_HINT_MEMORY_MAP ≠ 0 then
      open_mmap P (sys_open P h flags).2 { stream with fd := (sys_open P h flags).1 }
    else open_finish P (sys_open P h flags).2 { stream with fd := (sys_open P h flags).1 }

/-- Values of upstream `libretro.h` on an LP64 POSIX host, where `mmap` of length 0
fails and `lseek` and `fseek` are `posix_lseek` and `posix_fseek`; used to evaluate the
functions on concrete inputs. -/
def posix64 : Platform :=
  { RETRO_VFS_FILE_ACCESS_READ := 1
    RETRO_VFS_FILE_ACCESS_WRITE := 2
    RETRO_VFS_FILE_ACCESS_READ_WRITE := 3
    RETRO_VFS_FILE_ACCESS_UPDATE_EXISTING := 4
    RETRO_VFS_FILE_ACCESS_HINT_MEMORY_MAP := 1
    LONG_BITS := 64
    perm_bits_excl := true
    mmap_ok := fun len => decide (0 < len)
    os_lseek := posix_lseek
    os_fseek := posix_fseek 64 }

/-- A 5-byte file ("hello"). -/
def hello : List Nat := [104, 101, 108, 108, 111]

/-- An unbuffered-descriptor handle on the open file of `host10`. -/
def unbuffered10 : libretro_vfs_implementation_file :=
  { fd := 3, hints := 256, size := 0, mappos := 0, mapsize := 0, buf := false, fp := false,
    mapped := MapPtr.NULL }

/-- A platform as `posix64` on which `mmap` always succeeds. -/
def posix64_mmap : Platform := { posix64 with mmap_ok := fun _ => true }

/-- A memory-mapped handle on a 10-byte mapping, cursor `c`. -/
def mapped10 (c : Nat) : libretro_vfs_implementation_file :=
  { fd := 3, hints := 257, size := 10, mappos := c, mapsize := 10, buf := false, fp := false,
    mapped := MapPtr.region [0, 1, 2, 3, 4, 5, 6, 7, 8, 9] }

/-- The host after a 10-byte file is opened through a descriptor. -/
def host10 : Host :=
  { Host.closed (some [0, 1, 2, 3, 4, 5, 6, 7, 8, 9]) with fd := some 3 }

@[simp]
theorem Outcome.bind_done {α β : Type} (a : α) (f : α → Outcome β) :
    (Outcome.done a).bind f = f a := rfl

@[simp]
theorem Outcome.bind_fault {α β : Type} (f : α → Outcome β) :
    (Outcome.fault : Outcome α).bind f = Outcome.fault := rfl

/-- Bits of `~m` as an `unsigned`. -/
theorem not_u32_testBit (m i : Nat) (hm : m < 2 ^ 32) :
    (not_u32 m).testBit i = (decide (i < 32) && !m.testBit i) := by
  unfold not_u32
  rw [Nat.mod_eq_of_lt hm]
  have e : 2 ^ 32 - 1 - m = 2 ^ 32 - (m + 1) := by omega
  rw [e, Nat.testBit_two_pow_sub_succ hm]

/-- An `unsigned` has no bit from 32 on. -/
theorem testBit_high (x i : Nat) (hx : x < 2 ^ 32) (hi : ¬ i < 32) : x.testBit i = false := by
  apply Nat.testBit_lt_two_pow
  calc x < 2 ^ 32 := hx
    _ ≤ 2 ^ i := Nat.pow_le_pow_right (by decide) (by omega)

/-- After `|= RFILE_HINT_UNBUFFERED` the unbuffered bit is set. -/
theorem or_unbuffered_ne_zero (x : Nat) :
    (x ||| RFILE_HINT_UNBUFFERED) &&& RFILE_HINT_UNBUFFERED ≠ 0 := by
  intro h
  have h1 := congrArg (fun n => Nat.testBit n 8) h
  have h8 : Nat.testBit 256 8 = true := by decide
  simp [RFILE_HINT_UNBUFFERED, h8] at h1

/-- After `&= ~m` no bit of `m` is set. -/
theorem and_not_u32_and (x m : Nat) (hm : m < 2 ^ 32) : (x &&& not_u32 m) &&& m = 0 := by
  apply Nat.eq_of_testBit_eq
  intro i
  simp [not_u32_testBit m i hm]

/-- Bits of `~m` as an `unsigned`, for every `m`. -/
theorem not_u32_testBit_all (m i : Nat) :
    (not_u32 m).testBit i = (decide (i < 32) && !m.testBit i) := by
  unfold not_u32
  have hlt : m % 2 ^ 32 < 2 ^ 32 := Nat.mod_lt _ (by decide)
  have e : 2 ^ 32 - 1 - m % 2 ^ 32 = 2 ^ 32 - (m % 2 ^ 32 + 1) := by omega
  rw [e, Nat.testBit_two_pow_sub_succ hlt, Nat.testBit_mod_two_pow]
  by_cases hi : i < 32 <;> simp [hi]

/-- After `&= ~m` no bit of `m` is set, for every `m`. -/
theorem and_not_u32_and_all (x m : Nat) : (x &&& not_u32 m) &&& m = 0 := by
  apply Nat.eq_of_testBit_eq
  intro i
  simp [not_u32_testBit_all m i]

/-- Conversion to `uint64_t` keeps a value in range. -/
theorem to_uint64_nonneg (i : Int) (h0 : 0 ≤ i) (h1 : i < 2 ^ 64) : to_uint64 i = i.toNat := by
  unfold to_uint64
  omega

/-- Conversion to `int64_t` keeps a value below `2 ^ 63`. -/
theorem to_int64_small (i : Int) (h0 : 0 ≤ i) (h1 : i < 2 ^ 63) : to_int64 i = i := by
  unfold to_int64 to_signed
  omega

/-- The `uint64_t` sum of a cursor and a signed offset, by the range of the exact sum. -/
theorem add_u64_offset (c : Nat) (d : Int) (hc : c < 2 ^ 64) (hd0 : -2 ^ 63 ≤ d)
    (hd1 : d < 2 ^ 63) :
    (add_u64 c (to_uint64 d) : Int) =
      if (c : Int) + d < 0 then (c : Int) + d + 2 ^ 64
      else if (c : Int) + d < 2 ^ 64 then (c : Int) + d else (c : Int) + d - 2 ^ 64 := by
  unfold add_u64 to_uint64
  split_ifs <;> omega

/-- Seek relative to the cursor on the memory-mapped path: rejected exactly when the
sum leaves the range of the unsigned 64-bit cursor. -/
theorem mapped_seek_cur_spec (P : Platform) (h : Host) (stream : libretro_vfs_implementation_file)
    (d : Int) (hu : stream.hints &&& RFILE_HINT_UNBUFFERED ≠ 0)
    (hp : stream.mapped ≠ MapPtr.NULL)
    (hm : stream.hints &&& P.RETRO_VFS_FILE_ACCESS_HINT_MEMORY_MAP ≠ 0)
    (hc : stream.mappos < 2 ^ 64) (hd0 : -2 ^ 63 ≤ d) (hd1 : d < 2 ^ 63) :
    ((stream.mappos : Int) + d < 0 ∨ 2 ^ 64 ≤ (stream.mappos : Int) + d →
      retro_vfs_file_seek_internal P h (some stream) d SEEK_CUR
        = Outcome.done { ret := -1, host := h, stream := some stream })
    ∧ (0 ≤ (stream.mappos : Int) + d → (stream.mappos : Int) + d < 2 ^ 64 →
      retro_vfs_file_seek_internal P h (some stream) d SEEK_CUR
        = Outcome.done
          { ret := to_int64 ((stream.mappos : Int) + d), host := h,
            stream := some { stream with mappos := ((stream.mappos : Int) + d).toNat } }) := by
  have ha := add_u64_offset stream.mappos d hc hd0 hd1
  have hcur : SEEK_CUR ≠ SEEK_SET := by decide
  constructor
  · intro hr
    have hcond : (d < 0 ∧ add_u64 stream.mappos (to_uint64 d) > stream.mappos)
        ∨ (d > 0 ∧ add_u64 stream.mappos (to_uint64 d) < stream.mappos) := by
      split_ifs at ha <;> omega
    simp only [retro_vfs_file_seek_internal, if_neg hu, hcur, if_false, if_true]
    rw [if_pos ⟨hp, hm⟩, if_pos hcond]
  · intro h0 h1
    have hcond : ¬ ((d < 0 ∧ add_u64 stream.mappos (to_uint64 d) > stream.mappos)
        ∨ (d > 0 ∧ add_u64 stream.mappos (to_uint64 d) < stream.mappos)) := by
      split_ifs at ha <;> omega
    have hv : add_u64 stream.mappos (to_uint64 d) = ((stream.mappos : Int) + d).toNat := by
      split_ifs at ha <;> omega
    simp only [retro_vfs_file_seek_internal, if_neg hu, hcur, if_false, if_true]
    rw [if_pos ⟨hp, hm⟩, if_neg hcond, hv, Int.toNat_of_nonneg h0]

/-- Seek from the start on the memory-mapped path: negative offsets are rejected, any
other offset becomes the cursor and is returned. -/
theorem mapped_seek_set_spec (P : Platform) (h : Host) (stream : libretro_vfs_implementation_file)
    (d : Int) (hu : stream.hints &&& RFILE_HINT_UNBUFFERED ≠ 0)
    (hp : stream.mapped ≠ MapPtr.NULL)
    (hm : stream.hints &&& P.RETRO_VFS_FILE_ACCESS_HINT_MEMORY_MAP ≠ 0)
    (hd1 : d < 2 ^ 63) :
    (d < 0 → retro_vfs_file_seek_internal P h (some stream) d SEEK_SET
        = Outcome.done { ret := -1, host := h, stream := some stream })
    ∧ (0 ≤ d → retro_vfs_file_seek_internal P h (some stream) d SEEK_SET
        = Outcome.done { ret := d, host := h, stream := some { stream with mappos := d.toNat } }) := by
  constructor
  · intro hneg
    simp only [retro_vfs_file_seek_internal, if_neg hu, if_true]
    rw [if_pos ⟨hp, hm⟩, if_pos hneg]
  · intro h0
    simp only [retro_vfs_file_seek_internal, if_neg hu, if_true]
    rw [if_pos ⟨hp, hm⟩, if_neg (by omega), to_uint64_nonneg d h0 (by omega),
      Int.toNat_of_nonneg h0, to_int64_small d h0 hd1]

/-- A seek changes at most the cursor field of the handle; off the memory-mapped path
it changes nothing, and on it `seek(Set, 0)` puts the cursor at 0. -/
theorem seek_internal_frame (P : Platform) (h : Host) (st : libretro_vfs_implementation_file)
    (off wh : Int) (r : Ret)
    (hr : retro_vfs_file_seek_internal P h (some st) off wh = Outcome.done r) :
    ∃ p, r.stream = some { st with mappos := p }
      ∧ ((st.hints &&& RFILE_HINT_UNBUFFERED = 0
          ∨ ¬ (st.mapped ≠ MapPtr.NULL
            ∧ st.hints &&& P.RETRO_VFS_FILE_ACCESS_HINT_MEMORY_MAP ≠ 0)) → p = st.mappos)
      ∧ (wh = SEEK_SET → off = 0 → st.hints &&& RFILE_HINT_UNBUFFERED ≠ 0 →
          (st.mapped ≠ MapPtr.NULL
            ∧ st.hints &&& P.RETRO_VFS_FILE_ACCESS_HINT_MEMORY_MAP ≠ 0) → p = 0) := by
  unfold retro_vfs_file_seek_internal at hr
  simp only at hr
  split_ifs at hr with hb hm h1 h2 h3 h4 h5 h6 h7
  · split at hr
    · exact absurd hr (by simp)
    · have hr1 := Outcome.done.inj hr
      subst hr1
      exact ⟨st.mappos, rfl, fun _ => rfl, fun _ _ hu _ => absurd hb hu⟩
  · have hr1 := Outcome.done.inj hr
    subst hr1
    exact ⟨st.mappos, rfl, fun _ => rfl, fun _ h0 _ _ => absurd (h0 ▸ h2) (by decide)⟩
  · have hr1 := Outcome.done.inj hr
    subst hr1
    refine ⟨to_uint64 off, rfl, fun hc => ?_, fun _ h0 _ _ => ?_⟩
    · rcases hc with hc | hc
      · exact absurd hc hb
      · exact absurd hm hc
    · subst h0
      decide
  · have hr1 := Outcome.done.inj hr
    subst hr1
    exact ⟨st.mappos, rfl, fun _ => rfl, fun hw _ _ _ => absurd hw h1⟩
  · have hr1 := Outcome.done.inj hr
    subst hr1
    refine ⟨_, rfl, fun hc => ?_, fun hw _ _ _ => absurd hw h1⟩
    rcases hc with hc | hc
    · exact absurd hc hb
    · exact absurd hm hc
  · have hr1 := Outcome.done.inj hr
    subst hr1
    exact ⟨st.mappos, rfl, fun _ => rfl, fun hw _ _ _ => absurd hw h1⟩
  · have hr1 := Outcome.done.inj hr
    subst hr1
    refine ⟨_, rfl, fun hc => ?_, fun hw _ _ _ => absurd hw h1⟩
    rcases hc with hc | hc
    · exact absurd hc hb
    · exact absurd hm hc
  · have hr1 := Outcome.done.inj hr
    subst hr1
    exact ⟨st.mappos, rfl, fun _ => rfl, fun hw _ _ _ => absurd hw h1⟩
  · have hr1 := Outcome.done.inj hr
    subst hr1
    exact ⟨st.mappos, rfl, fun _ => rfl, fun _ _ _ hc => absurd hc hm⟩
  · have hr1 := Outcome.done.inj hr
    subst hr1
    exact ⟨st.mappos, rfl, fun _ => rfl, fun _ _ _ hc => absurd hc hm⟩

/-- The call `tell` leaves the handle as it is. -/
theorem tell_impl_frame (P : Platform) (h : Host) (st : libretro_vfs_implementation_file)
    (r : Ret) (hr : retro_vfs_file_tell_impl P h (some st) = Outcome.done r) :
    r.stream = some st := by
  unfold retro_vfs_file_tell_impl at hr
  simp only at hr
  split_ifs at hr
  · split at hr
    · exact absurd hr (by simp)
    · have hr1 := Outcome.done.inj hr
      subst hr1
      rfl
  all_goals
    have hr1 := Outcome.done.inj hr
    subst hr1
    rfl

/-- When the end of `open` returns, the handle it returns is the one it was given
with a new cached size and the cursor at 0. -/
theorem open_finish_frame (P : Platform) (h : Host) (st : libretro_vfs_implementation_file)
    (r : OpenRet) (h0 : st.mappos = 0) (hr : open_finish P h st = Outcome.done r) :
    ∃ sz, r.handle = some { st with size := sz } := by
  unfold open_finish at hr
  cases h1 : retro_vfs_file_seek_internal P h (some st) 0 SEEK_SET with
  | fault => rw [h1] at hr; exact absurd hr (by simp)
  | done r1 =>
    rw [h1] at hr
    simp only [Outcome.bind_done] at hr
    obtain ⟨p1, e1, n1, m1⟩ := seek_internal_frame P h st 0 SEEK_SET r1 h1
    rw [e1] at hr
    cases h2 : retro_vfs_file_seek_internal P r1.host (some { st with mappos := p1 }) 0 SEEK_END with
    | fault => rw [h2] at hr; exact absurd hr (by simp)
    | done r2 =>
      rw [h2] at hr
      simp only [Outcome.bind_done] at hr
      obtain ⟨p2, e2, n2, m2⟩ := seek_internal_frame P r1.host _ 0 SEEK_END r2 h2
      rw [e2] at hr
      cases h3 : retro_vfs_file_tell_impl P r2.host (some { st with mappos := p2 }) with
      | fault => rw [h3] at hr; exact absurd hr (by simp)
      | done r3 =>
        rw [h3] at hr
        simp only [Outcome.bind_done] at hr
        have e3 := tell_impl_frame P r2.host _ r3 h3
        rw [e3] at hr
        simp only [Option.map_some'] at hr
        cases h4 : retro_vfs_file_seek_internal P r3.host
            (some { st with mappos := p2, size := r3.ret }) 0 SEEK_SET with
        | fault => rw [h4] at hr; exact absurd hr (by simp)
        | done r4 =>
          rw [h4] at hr
          simp only [Outcome.bind_done] at hr
          obtain ⟨p4, e4, n4, m4⟩ := seek_internal_frame P r3.host _ 0 SEEK_SET r4 h4
          have hr1 := Outcome.done.inj hr
          subst hr1
          refine ⟨r3.ret, ?_⟩
          simp only [e4]
          have hp4 : p4 = 0 := by
            by_cases hc : st.hints &&& RFILE_HINT_UNBUFFERED = 0
                ∨ ¬ (st.mapped ≠ MapPtr.NULL
                  ∧ st.hints &&& P.RETRO_VFS_FILE_ACCESS_HINT_MEMORY_MAP ≠ 0)
            · rw [n4 hc]
              show p2 = 0
              rw [n2 hc]
              show p1 = 0
              rw [n1 hc, h0]
            · have hc1 := not_or.mp hc
              exact m4 rfl rfl hc1.1 (not_not.mp hc1.2)
          rw [hp4, ← h0]

/-- Off the memory-mapped path a seek returns 0 or -1, never a position. -/
theorem seek_internal_status (P : Platform) (h : Host) (st : libretro_vfs_implementation_file)
    (off wh : Int) (r : Ret)
    (hn : ¬ (st.mapped ≠ MapPtr.NULL
      ∧ st.hints &&& P.RETRO_VFS_FILE_ACCESS_HINT_MEMORY_MAP ≠ 0))
    (hr : retro_vfs_file_seek_internal P h (some st) off wh = Outcome.done r) :
    r.ret = 0 ∨ r.ret = -1 := by
  unfold retro_vfs_file_seek_internal at hr
  simp only at hr
  rw [if_neg hn] at hr
  split_ifs at hr with hb hl
  · unfold fseek at hr
    split at hr
    · exact absurd hr (by simp)
    · rename_i r0 h1 heq
      have hr1 := Outcome.done.inj hr
      subst hr1
      split_ifs at heq
      · exact Or.inl (congrArg Prod.fst (Outcome.done.inj heq)).symm
      · exact Or.inr (congrArg Prod.fst (Outcome.done.inj heq)).symm
  · have hr1 := Outcome.done.inj hr
    subst hr1
    exact Or.inr rfl
  · have hr1 := Outcome.done.inj hr
    subst hr1
    exact Or.inl rfl

/-- The memory-map block of `open` records 0 as the mapped size whenever it returns a
handle; the hints of the handle are those it was given, or those with the memory-map
bits cleared; when the memory-map hint is still set the mapping is the empty one. -/
theorem open_mmap_fields (P : Platform) (h : Host) (st : libretro_vfs_implementation_file)
    (r : OpenRet) (s : libretro_vfs_implementation_file)
    (hr : open_mmap P h st = Outcome.done r) (hs : r.handle = some s) :
    s.mappos = 0 ∧ s.mapsize = 0
      ∧ (s.hints = st.hints
        ∨ s.hints = st.hints &&& not_u32 P.RETRO_VFS_FILE_ACCESS_HINT_MEMORY_MAP)
      ∧ (s.hints &&& P.RETRO_VFS_FILE_ACCESS_HINT_MEMORY_MAP ≠ 0 →
        s.mapped = MapPtr.region []) := by
  unfold open_mmap at hr
  simp only at hr
  cases h1 : retro_vfs_file_seek_internal P h
      (some { st with mappos := 0, mapped := MapPtr.NULL }) 0 SEEK_END with
  | fault => rw [h1] at hr; exact absurd hr (by simp)
  | done r1 =>
    rw [h1] at hr
    simp only [Outcome.bind_done] at hr
    have hst := seek_internal_status P h _ 0 SEEK_END r1 (by simp) h1
    rcases hst with hz | hm1
    · rw [hz] at hr
      have hu0 : to_uint64 0 = 0 := by decide
      rw [hu0, if_neg (by decide)] at hr
      cases h2 : retro_vfs_file_seek_internal P r1.host
          (some { st with mappos := 0, mapped := MapPtr.NULL, mapsize := 0 }) 0 SEEK_SET with
      | fault => rw [h2] at hr; exact absurd hr (by simp)
      | done r2 =>
        rw [h2] at hr
        simp only [Outcome.bind_done] at hr
        split_ifs at hr with hfail
        · obtain ⟨sz, e⟩ := open_finish_frame P r2.host _ r (by rfl) hr
          rw [e] at hs
          have hs1 := Option.some.inj hs
          subst hs1
          exact ⟨rfl, rfl, Or.inr rfl, fun hin => absurd (and_not_u32_and_all _ _) hin⟩
        · obtain ⟨sz, e⟩ := open_finish_frame P r2.host _ r (by rfl) hr
          rw [e] at hs
          have hs1 := Option.some.inj hs
          subst hs1
          refine ⟨rfl, rfl, Or.inl rfl, fun _ => ?_⟩
          show mmap P r2.host 0 = MapPtr.region []
          have hne : mmap P r2.host 0 ≠ MapPtr.MAP_FAILED := hfail
          unfold mmap at hne ⊢
          split_ifs at hne ⊢ with hok
          · rfl
          · exact absurd rfl hne
    · rw [hm1] at hr
      have hu1 : to_uint64 (-1) = 2 ^ 64 - 1 := by decide
      rw [hu1, if_pos rfl] at hr
      unfold open_error at hr
      have hr1 := Outcome.done.inj hr
      subst hr1
      exact absurd hs (by simp)

/-- Whatever the file, the mode and the hints, a handle returned by `open` has its
cursor at 0 and 0 as its mapped size; its hints are the effective hints, or those with
the memory-map bits cleared; when the unbuffered bit and the memory-map hint are set
its mapping is the empty one. -/
theorem open_impl_fields (P : Platform) (h : Host) (mode hints : Nat)
    (r : OpenRet) (s : libretro_vfs_implementation_file)
    (hr : retro_vfs_file_open_impl P h mode hints = Outcome.done r) (hs : r.handle = some s) :
    s.mappos = 0 ∧ s.mapsize = 0
      ∧ (s.hints = open_hints P mode hints
        ∨ s.hints = open_hints P mode hints
            &&& not_u32 P.RETRO_VFS_FILE_ACCESS_HINT_MEMORY_MAP)
      ∧ (s.hints &&& RFILE_HINT_UNBUFFERED ≠ 0 →
        s.hints &&& P.RETRO_VFS_FILE_ACCESS_HINT_MEMORY_MAP ≠ 0 →
        s.mapped = MapPtr.region []) := by
  have fin : ∀ (h1 : Host) (st : libretro_vfs_implementation_file), st.mappos = 0 →
      st.mapsize = 0 → st.hints = open_hints P mode hints →
      (st.hints &&& RFILE_HINT_UNBUFFERED ≠ 0 →
        st.hints &&& P.RETRO_VFS_FILE_ACCESS_HINT_MEMORY_MAP ≠ 0 → False) →
      open_finish P h1 st = Outcome.done r →
      s.mappos = 0 ∧ s.mapsize = 0
        ∧ (s.hints = open_hints P mode hints
          ∨ s.hints = open_hints P mode hints
              &&& not_u32 P.RETRO_VFS_FILE_ACCESS_HINT_MEMORY_MAP)
        ∧ (s.hints &&& RFILE_HINT_UNBUFFERED ≠ 0 →
          s.hints &&& P.RETRO_VFS_FILE_ACCESS_HINT_MEMORY_MAP ≠ 0 →
          s.mapped = MapPtr.region []) := by
    intro h1 st hp hz hh hq hf
    obtain ⟨sz, e⟩ := open_finish_frame P h1 st r hp hf
    rw [e] at hs
    have hs1 := Option.some.inj hs
    subst hs1
    exact ⟨hp, hz, Or.inl hh, fun hu hm => absurd (hq hu hm) id⟩
  have err : ∀ (h1 : Host) (st : libretro_vfs_implementation_file),
      open_error h1 st = Outcome.done r →
      s.mappos = 0 ∧ s.mapsize = 0
        ∧ (s.hints = open_hints P mode hints
          ∨ s.hints = open_hints P mode hints
              &&& not_u32 P.RETRO_VFS_FILE_ACCESS_HINT_MEMORY_MAP)
        ∧ (s.hints &&& RFILE_HINT_UNBUFFERED ≠ 0 →
          s.hints &&& P.RETRO_VFS_FILE_ACCESS_HINT_MEMORY_MAP ≠ 0 →
          s.mapped = MapPtr.region []) := by
    intro h1 st he
    unfold open_error at he
    have hr1 := Outcome.done.inj he
    subst hr1
    exact absurd hs (by simp)
  have viaMap : ∀ (h1 : Host) (st : libretro_vfs_implementation_file),
      st.hints = open_hints P mode hints → open_mmap P h1 st = Outcome.done r →
      s.mappos = 0 ∧ s.mapsize = 0
        ∧ (s.hints = open_hints P mode hints
          ∨ s.hints = open_hints P mode hints
              &&& not_u32 P.RETRO_VFS_FILE_ACCESS_HINT_MEMORY_MAP)
        ∧ (s.hints &&& RFILE_HINT_UNBUFFERED ≠ 0 →
          s.hints &&& P.RETRO_VFS_FILE_ACCESS_HINT_MEMORY_MAP ≠ 0 →
          s.mapped = MapPtr.region []) := by
    intro h1 st hh hm
    obtain ⟨a, b, c, d⟩ := open_mmap_fields P h1 st r s hm hs
    rw [hh] at c
    exact ⟨a, b, c, fun _ hin => d hin⟩
  unfold retro_vfs_file_open_impl at hr
  simp only at hr
  split at hr
  · split_ifs at hr with c1 c2 c3 c4
    · exact err _ _ hr
    · exact fin _ _ rfl rfl rfl (fun hu _ => hu c1) hr
    · exact err _ _ hr
    · exact viaMap _ _ rfl hr
    · exact fin _ _ rfl rfl rfl (fun _ hm => c4 hm) hr
  · split_ifs at hr with c1 c2
    · exact err _ _ hr
    · exact viaMap _ _ rfl hr
    · exact fin _ _ rfl rfl rfl (fun _ hm => c2 hm) hr

/-- The effective hints have the memory-map hint only together with the unbuffered
bit, and only for mode Read. -/
theorem open_hints_paired (P : Platform) (mode hints : Nat)
    (hM : P.RETRO_VFS_FILE_ACCESS_HINT_MEMORY_MAP < 2 ^ 32)
    (hin : open_hints P mode hints &&& P.RETRO_VFS_FILE_ACCESS_HINT_MEMORY_MAP ≠ 0) :
    open_hints P mode hints &&& RFILE_HINT_UNBUFFERED ≠ 0
      ∧ mode = P.RETRO_VFS_FILE_ACCESS_READ := by
  by_cases hc : hints &&& P.RETRO_VFS_FILE_ACCESS_HINT_MEMORY_MAP ≠ 0
      ∧ mode = P.RETRO_VFS_FILE_ACCESS_READ
  · simp only [open_hints, if_pos hc]
    exact ⟨or_unbuffered_ne_zero hints, hc.2⟩
  · simp only [open_hints, if_neg hc] at hin
    exact absurd (and_not_u32_and hints _ hM) hin

/-- On every handle `open` returns, the memory-map hint is set only together with the
unbuffered bit. -/
theorem open_impl_hints_paired (P : Platform) (h : Host) (mode hints : Nat)
    (r : OpenRet) (s : libretro_vfs_implementation_file)
    (hM : P.RETRO_VFS_FILE_ACCESS_HINT_MEMORY_MAP < 2 ^ 32)
    (hr : retro_vfs_file_open_impl P h mode hints = Outcome.done r) (hs : r.handle = some s)
    (hin : s.hints &&& P.RETRO_VFS_FILE_ACCESS_HINT_MEMORY_MAP ≠ 0) :
    s.hints &&& RFILE_HINT_UNBUFFERED ≠ 0 := by
  rcases (open_impl_fields P h mode hints r s hr hs).2.2.1 with e | e
  · rw [e] at hin ⊢
    exact (open_hints_paired P mode hints hM hin).1
  · rw [e] at hin
    exact absurd (and_not_u32_and _ _ hM) hin

/-- A read never moves the cursor of a handle past the mapped size, and leaves the
mapped size alone. -/
theorem read_impl_keeps_bounds (P : Platform) (h : Host)
    (stream : libretro_vfs_implementation_file) (b : Bool) (len : Nat) (r : ReadRet)
    (hS : stream.mapsize < 2 ^ 64) (hinv : stream.mappos ≤ stream.mapsize)
    (hr : retro_vfs_file_read_impl P h (some stream) b len = Outcome.done r) :
    ∃ s1, r.stream = some s1 ∧ s1.mapsize = stream.mapsize ∧ s1.mappos ≤ s1.mapsize := by
  unfold retro_vfs_file_read_impl at hr
  simp only at hr
  split_ifs at hr with hb hu hm hgt hcl
  · have hr1 := Outcome.done.inj hr
    subst hr1
    exact ⟨stream, rfl, rfl, hinv⟩
  · split at hr
    · exact absurd hr (by simp)
    · have hr1 := Outcome.done.inj hr
      subst hr1
      exact ⟨stream, rfl, rfl, hinv⟩
  · have hr1 := Outcome.done.inj hr
    subst hr1
    exact ⟨stream, rfl, rfl, hinv⟩
  · split at hr
    · exact absurd hr (by simp)
    · have hr1 := Outcome.done.inj hr
      subst hr1
      refine ⟨_, rfl, rfl, ?_⟩
      show add_u64 stream.mappos (sub_u64 stream.mapsize stream.mappos) ≤ stream.mapsize
      unfold add_u64 sub_u64
      omega
  · split at hr
    · exact absurd hr (by simp)
    · have hr1 := Outcome.done.inj hr
      subst hr1
      refine ⟨_, rfl, rfl, ?_⟩
      show add_u64 stream.mappos len ≤ stream.mapsize
      omega
  · have hr1 := Outcome.done.inj hr
    subst hr1
    exact ⟨stream, rfl, rfl, hinv⟩

/-- Clearing bits keeps the unbuffered bit clear. -/
theorem and_not_u32_unbuffered_zero (x m : Nat) (hb : x &&& RFILE_HINT_UNBUFFERED = 0) :
    (x &&& not_u32 m) &&& RFILE_HINT_UNBUFFERED = 0 := by
  rw [Nat.and_assoc, Nat.and_comm (not_u32 m), ← Nat.and_assoc, hb, Nat.zero_and]

/-- Zero converts to zero in any signed type. -/
theorem to_signed_zero (w : Nat) (hw : 1 ≤ w) : to_signed w 0 = 0 := by
  unfold to_signed
  have h1 : (2 : Int) ^ w = 2 * 2 ^ (w - 1) := by
    rw [← pow_succ']
    congr 1
    omega
  have h2 : (0 : Int) < 2 ^ (w - 1) := by positivity
  rw [zero_add, h1, Int.emod_eq_of_lt (le_of_lt h2) (by omega)]
  omega

/-- The buffered backend: a file of `n` bytes opened with mode Read and neither the
unbuffered nor the memory-map hint gets `n` as cached size, with the stream back at 0,
on a host whose `fseek` is `posix_fseek`. -/
theorem open_buffered_size (P : Platform) (bytes : List Nat) (hints : Nat)
    (hb : hints &&& RFILE_HINT_UNBUFFERED = 0)
    (hm : hints &&& P.RETRO_VFS_FILE_ACCESS_HINT_MEMORY_MAP = 0)
    (hf : P.os_fseek = posix_fseek P.LONG_BITS)
    (hw : 1 ≤ P.LONG_BITS) (hn : (bytes.length : Int) < 2 ^ (P.LONG_BITS - 1)) :
    retro_vfs_file_open_impl P (Host.closed (some bytes)) P.RETRO_VFS_FILE_ACCESS_READ hints
      = Outcome.done
        { handle := some { calloc_stream with
            hints := hints &&& not_u32 P.RETRO_VFS_FILE_ACCESS_HINT_MEMORY_MAP,
            fp := true, buf := true, size := bytes.length },
          host := { Host.closed (some bytes) with fp := true } } := by
  have hh : open_hints P P.RETRO_VFS_FILE_ACCESS_READ hints
      = hints &&& not_u32 P.RETRO_VFS_FILE_ACCESS_HINT_MEMORY_MAP := by
    unfold open_hints
    rw [if_neg (by simp [hm])]
  have hb2 := and_not_u32_unbuffered_zero hints P.RETRO_VFS_FILE_ACCESS_HINT_MEMORY_MAP hb
  have h2 : (0 : Int) < 2 ^ (P.LONG_BITS - 1) := by positivity
  simp only [retro_vfs_file_open_impl, hh, open_switch, calloc_stream, hb2, if_true, fopen,
    Host.closed, Option.isSome_some, Bool.true_eq_false, if_false, open_finish,
    retro_vfs_file_seek_internal, to_signed_zero _ hw, fseek, hf, posix_fseek, or_self,
    seek_target, Outcome.bind_done, retro_vfs_file_tell_impl, ftell, Host.length,
    Option.getD_some]
  simp [SEEK_SET, SEEK_CUR, SEEK_END, h2, hn, hb2, retro_vfs_file_tell_impl, ftell, Host.length,
    retro_vfs_file_seek_internal, fseek, hf, posix_fseek, seek_target, to_signed_zero _ hw]

/-- The unbuffered hint is bit 8. -/
theorem unbuffered_bit (x : Nat) : x &&& RFILE_HINT_UNBUFFERED ≠ 0 ↔ x.testBit 8 = true := by
  have e : RFILE_HINT_UNBUFFERED = 2 ^ 8 := by decide
  rw [e]
  constructor
  · intro hne
    by_contra hb
    apply hne
    apply Nat.eq_of_testBit_eq
    intro i
    rw [Nat.testBit_and, Nat.testBit_two_pow, Nat.zero_testBit]
    by_cases hi : 8 = i
    · subst hi
      simp [Bool.eq_false_iff.mpr hb]
    · simp [hi]
  · intro hb hz
    have h1 := congrArg (fun n => Nat.testBit n 8) hz
    have h8 : Nat.testBit 256 8 = true := by decide
    simp [hb, h8] at h1

/-- The unbuffered-descriptor backend: whatever the length of the file, opened with
mode Read and the unbuffered hint (no memory-map hint) it gets 0 as cached size, on a
host whose `lseek` is `posix_lseek`. -/
theorem open_descriptor_size (P : Platform) (bytes : List Nat) (hints : Nat)
    (hu : hints &&& RFILE_HINT_UNBUFFERED ≠ 0)
    (hm : hints &&& P.RETRO_VFS_FILE_ACCESS_HINT_MEMORY_MAP = 0)
    (hM : P.RETRO_VFS_FILE_ACCESS_HINT_MEMORY_MAP < 2 ^ 32)
    (hl : P.os_lseek = posix_lseek)
    (hn : (bytes.length : Int) < 2 ^ 63) :
    retro_vfs_file_open_impl P (Host.closed (some bytes)) P.RETRO_VFS_FILE_ACCESS_READ hints
      = Outcome.done
        { handle := some { calloc_stream with
            hints := hints &&& not_u32 P.RETRO_VFS_FILE_ACCESS_HINT_MEMORY_MAP,
            fd := 3, size := 0 },
          host := { Host.closed (some bytes) with fd := some 3 } } := by
  have hh : open_hints P P.RETRO_VFS_FILE_ACCESS_READ hints
      = hints &&& not_u32 P.RETRO_VFS_FILE_ACCESS_HINT_MEMORY_MAP := by
    unfold open_hints
    rw [if_neg (by simp [hm])]
  have hb8 := (unbuffered_bit hints).mp hu
  have hm8 : (P.RETRO_VFS_FILE_ACCESS_HINT_MEMORY_MAP).testBit 8 = false := by
    have h1 := congrArg (fun n => Nat.testBit n 8) hm
    simpa [hb8] using h1
  have hu2 : (hints &&& not_u32 P.RETRO_VFS_FILE_ACCESS_HINT_MEMORY_MAP)
      &&& RFILE_HINT_UNBUFFERED ≠ 0 := by
    rw [unbuffered_bit, Nat.testBit_and, not_u32_testBit _ _ hM, hb8, hm8]
    decide
  have hm2 : (hints &&& not_u32 P.RETRO_VFS_FILE_ACCESS_HINT_MEMORY_MAP)
      &&& P.RETRO_VFS_FILE_ACCESS_HINT_MEMORY_MAP = 0 := and_not_u32_and _ _ hM
  simp only [retro_vfs_file_open_impl, hh, open_switch, calloc_stream, if_neg hu2, if_true,
    sys_open, Host.closed, Option.isSome_some, hm2, ne_eq, not_true_eq_false, if_false,
    open_finish, retro_vfs_file_seek_internal, and_false, lseek, hl, posix_lseek, seek_target,
    Outcome.bind_done, retro_vfs_file_tell_impl, Host.length, Option.getD_some]
  have hn1 : bytes.length < 9223372036854775808 := by omega
  have hnn : ¬ ((bytes.length : Int) < 0) := by omega
  simp [SEEK_SET, SEEK_CUR, SEEK_END, hn1, hnn, hu2, hm2, retro_vfs_file_tell_impl,
    retro_vfs_file_seek_internal, lseek, hl, posix_lseek, seek_target, Host.length]

/-- C8: the effective hints `open` computes are the requested hints with the
unbuffered bit added when the memory-map hint is requested and the mode is Read;
otherwise the requested hints with the memory-map bits cleared and every other bit
as requested.  Hence the memory-map hint is in effect only together with the
unbuffered bit and only for mode Read. -/
theorem open_hints_effective (P : Platform) (mode hints : Nat)
    (hh : hints < 2 ^ 32) (hM : P.RETRO_VFS_FILE_ACCESS_HINT_MEMORY_MAP < 2 ^ 32) :
    (hints &&& P.RETRO_VFS_FILE_ACCESS_HINT_MEMORY_MAP ≠ 0
        ∧ mode = P.RETRO_VFS_FILE_ACCESS_READ →
      open_hints P mode hints = hints ||| RFILE_HINT_UNBUFFERED)
    ∧ (¬ (hints &&& P.RETRO_VFS_FILE_ACCESS_HINT_MEMORY_MAP ≠ 0
        ∧ mode = P.RETRO_VFS_FILE_ACCESS_READ) →
      ∀ i, (open_hints P mode hints).testBit i
        = (hints.testBit i && !(P.RETRO_VFS_FILE_ACCESS_HINT_MEMORY_MAP).testBit i))
    ∧ (open_hints P mode hints &&& P.RETRO_VFS_FILE_ACCESS_HINT_MEMORY_MAP ≠ 0 →
      open_hints P mode hints &&& RFILE_HINT_UNBUFFERED ≠ 0
        ∧ mode = P.RETRO_VFS_FILE_ACCESS_READ) := by
  refine ⟨?_, ?_, ?_⟩
  · intro hc
    simp only [open_hints, if_pos hc]
  · intro hc i
    simp only [open_hints, if_neg hc, Nat.testBit_and, not_u32_testBit _ i hM]
    by_cases hi : i < 32
    · simp [hi]
    · simp [hi, testBit_high hints i hh hi]
  · exact open_hints_paired P mode hints hM

/-- Witness of C8: mode Read with the memory-map hint requested; the effective hints are 257. -/
theorem open_hints_effective_witness :
    open_hints posix64 1 1 = 1 ||| RFILE_HINT_UNBUFFERED :=
  (open_hints_effective posix64 1 1 (by decide) (by decide)).1 (by decide)

/-! ## C6: write on a memory-mapped handle -/

/-- C6: on a handle whose memory-map hint is in effect (which `open` only leaves
set together with the unbuffered bit) `retro_vfs_file_write_impl` returns -1 for
every buffer and length, the host (file, descriptor offset, stream) is unchanged,
and so is the handle (cursor, mapped size, cached size). -/
theorem write_impl_mapped_rejected (P : Platform) (h : Host)
    (stream : libretro_vfs_implementation_file) (s : List Nat) (len : Nat)
    (hu : stream.hints &&& RFILE_HINT_UNBUFFERED ≠ 0)
    (hm : stream.hints &&& P.RETRO_VFS_FILE_ACCESS_HINT_MEMORY_MAP ≠ 0) :
    retro_vfs_file_write_impl P h (some stream) s len
      = Outcome.done { ret := -1, host := h, stream := some stream } := by
  simp only [retro_vfs_file_write_impl, if_neg hu]
  simp only [ne_eq, hm, not_false_eq_true, if_true]

/-- Witness of C6: writing 5 bytes to a handle on a 10-byte mapping. -/
theorem write_impl_mapped_rejected_witness :
    retro_vfs_file_write_impl posix64 host10 (some (mapped10 0)) hello 5
      = Outcome.done { ret := -1, host := host10, stream := some (mapped10 0) } :=
  write_impl_mapped_rejected posix64 host10 (mapped10 0) hello 5 (by decide) (by decide)

/-! ## C7: null handles -/

/-- C7: `retro_vfs_file_error_impl` has no test of the handle: called with a null
handle it dereferences it (undefined behaviour), for every host state. -/
theorem error_impl_null_faults (h : Host) :
    retro_vfs_file_error_impl h none = Outcome.fault := rfl

/-- The other operations test the handle first: with a null handle close, seek, tell,
read, write and flush return -1 and size returns 0; read returns -1 for a null buffer. -/
theorem null_handle_returns (P : Platform) (h : Host) (offset whence : Int) (len : Nat)
    (s : List Nat) (b : Bool) (stream : libretro_vfs_implementation_file) :
    (retro_vfs_file_close_impl h none).1 = -1
    ∧ retro_vfs_file_size_impl none = 0
    ∧ retro_vfs_file_seek_impl P h none offset whence
        = Outcome.done { ret := -1, host := h, stream := none }
    ∧ retro_vfs_file_tell_impl P h none = Outcome.done { ret := -1, host := h, stream := none }
    ∧ retro_vfs_file_read_impl P h none b len
        = Outcome.done { ret := -1, host := h, stream := none, out := [] }
    ∧ retro_vfs_file_write_impl P h none s len
        = Outcome.done { ret := -1, host := h, stream := none }
    ∧ (retro_vfs_file_flush_impl h none).1 = -1
    ∧ retro_vfs_file_read_impl P h (some stream) false len
        = Outcome.done { ret := -1, host := h, stream := some stream, out := [] } :=
  ⟨rfl, rfl, rfl, rfl, rfl, rfl, rfl, rfl⟩

/-! ## C1: the cached size -/

/-- C1: a 5-byte file opened with mode Read and the unbuffered hint: `open` succeeds
and `retro_vfs_file_size_impl` returns 0, not 5 (`tell` returns 0 on the descriptor
path), and the descriptor is back at offset 0; opened with the memory-map hint on a
platform where `mmap` succeeds, the size is 0 as well. -/
theorem open_unbuffered_size_zero :
    (retro_vfs_file_open_impl posix64 (Host.closed (some hello)) 1 RFILE_HINT_UNBUFFERED).bind
      (fun r => Outcome.done (r.handle.isSome, retro_vfs_file_size_impl r.handle, r.host.offset))
      = Outcome.done (true, 0, 0)
    ∧ (retro_vfs_file_open_impl posix64_mmap (Host.closed (some hello)) 1 1).bind
      (fun r => Outcome.done (r.handle.isSome, retro_vfs_file_size_impl r.handle))
      = Outcome.done (true, 0) := by decide

/-! ## C2: read on a memory-mapped handle -/

/-- A handle state written down by hand, which no call of this file produces (the
mapped size is 0 on every handle `open` returns): mapped size 10, cursor 1 and length
`2 ^ 64 - 1`.  The sum in the clamp test wraps to 0, the length is not clamped, and the
copy runs past the end of the mapping. -/
theorem read_impl_mapped_wrap :
    retro_vfs_file_read_impl posix64 host10 (some (mapped10 1)) true (2 ^ 64 - 1)
      = Outcome.fault
    ∧ add_u64 (mapped10 1).mappos (2 ^ 64 - 1) = 0 := by decide

/-! ## C3: seek from the end on a memory-mapped handle -/

/-- C3: on a 10-byte mapping `seek(End, -2)` returns -1 and leaves the cursor, and
`seek(End, -2 ^ 63)` is accepted, moves the cursor to `2 ^ 63 + 10` and returns
`10 - 2 ^ 63`; on the handle `open` returns for a mapped 5-byte file (mapped size 0)
`seek(End, -2)` is accepted too, with cursor `2 ^ 64 - 2` and return value -2. -/
theorem seek_end_mapped_wrong :
    retro_vfs_file_seek_impl posix64 host10 (some (mapped10 0)) (-2) SEEK_END
      = Outcome.done { ret := -1, host := host10, stream := some (mapped10 0) }
    ∧ retro_vfs_file_seek_impl posix64 host10 (some (mapped10 0)) (-2 ^ 63) SEEK_END
      = Outcome.done { ret := 10 - 2 ^ 63, host := host10,
                       stream := some (mapped10 (2 ^ 63 + 10)) }
    ∧ ((retro_vfs_file_open_impl posix64_mmap (Host.closed (some hello)) 1 1).bind fun o =>
      (retro_vfs_file_seek_impl posix64_mmap o.host o.handle (-2) SEEK_END).bind fun r =>
        Outcome.done (r.ret, r.stream.map fun s => (s.mappos, s.mapsize)))
      = Outcome.done (-2, some (2 ^ 64 - 2, 0)) := by decide

/-! ## C9: seek relative to the cursor on a memory-mapped handle -/

/-- C9 (as stated, refuted): with the cursor at `2 ^ 63 - 1` (where `seek(Set, 2 ^ 63 - 1)`
puts it) `seek(Cur, 1)` is not rejected although the sum does not fit in a signed
64-bit integer: the cursor becomes `2 ^ 63` and the value returned is `-2 ^ 63`; the
same on the handle `open` returns for a mapped file. -/
theorem seek_cur_mapped_accepts_past_int64 :
    retro_vfs_file_seek_impl posix64 host10 (some (mapped10 0)) (2 ^ 63 - 1) SEEK_SET
      = Outcome.done { ret := 2 ^ 63 - 1, host := host10,
                       stream := some (mapped10 (2 ^ 63 - 1)) }
    ∧ retro_vfs_file_seek_impl posix64 host10 (some (mapped10 (2 ^ 63 - 1))) 1 SEEK_CUR
      = Outcome.done { ret := -2 ^ 63, host := host10, stream := some (mapped10 (2 ^ 63)) }
    ∧ ((retro_vfs_file_open_impl posix64_mmap (Host.closed (some hello)) 1 1).bind fun o =>
      (retro_vfs_file_seek_impl posix64_mmap o.host o.handle (2 ^ 63 - 1) SEEK_SET).bind fun r1 =>
      (retro_vfs_file_seek_impl posix64_mmap r1.host r1.stream 1 SEEK_CUR).bind fun r =>
        Outcome.done (r.ret, r.stream.map fun s => s.mappos))
      = Outcome.done (-2 ^ 63, some (2 ^ 63)) := by
  decide

/-- C9 (amended): on a memory-mapped handle with cursor `c`, `seek(Cur, d)` is rejected
whenever `c + d` is negative or does not fit in the unsigned 64-bit cursor; a rejected
seek returns -1 and leaves the handle as it was; otherwise the cursor becomes `c + d`,
and that value is returned when it is below `2 ^ 63`. -/
theorem seek_cur_mapped_amended (P : Platform) (h : Host)
    (stream : libretro_vfs_implementation_file) (d : Int)
    (hu : stream.hints &&& RFILE_HINT_UNBUFFERED ≠ 0)
    (hp : stream.mapped ≠ MapPtr.NULL)
    (hm : stream.hints &&& P.RETRO_VFS_FILE_ACCESS_HINT_MEMORY_MAP ≠ 0)
    (hc : stream.mappos < 2 ^ 64) (hd0 : -2 ^ 63 ≤ d) (hd1 : d < 2 ^ 63) :
    ((stream.mappos : Int) + d < 0 ∨ 2 ^ 64 ≤ (stream.mappos : Int) + d →
      retro_vfs_file_seek_impl P h (some stream) d SEEK_CUR
        = Outcome.done { ret := -1, host := h, stream := some stream })
    ∧ (0 ≤ (stream.mappos : Int) + d → (stream.mappos : Int) + d < 2 ^ 64 →
      ∃ ret, retro_vfs_file_seek_impl P h (some stream) d SEEK_CUR
          = Outcome.done
            { ret := ret, host := h,
              stream := some { stream with mappos := ((stream.mappos : Int) + d).toNat } }
        ∧ ((stream.mappos : Int) + d < 2 ^ 63 → ret = (stream.mappos : Int) + d)) := by
  have hl := mapped_seek_cur_spec P h stream d hu hp hm hc hd0 hd1
  refine ⟨hl.1, fun h0 h1 => ⟨to_int64 ((stream.mappos : Int) + d), hl.2 h0 h1, fun h2 => ?_⟩⟩
  exact to_int64_small _ h0 h2

/-- Witness of C9 (amended): from cursor 3, `seek(Cur, -5)` is rejected. -/
theorem seek_cur_mapped_amended_witness :
    retro_vfs_file_seek_impl posix64 host10 (some (mapped10 3)) (-5) SEEK_CUR
      = Outcome.done { ret := -1, host := host10, stream := some (mapped10 3) } :=
  (seek_cur_mapped_amended posix64 host10 (mapped10 3) (-5) (by decide) (by decide) (by decide)
    (by decide) (by decide) (by decide)).1 (Or.inl (by decide))

/-! ## C4: what seek returns -/

/-- C4 (as stated, refuted): on a 5-byte file, `seek(Set, 3)` on the buffered handle
and on the unbuffered-descriptor handle that `open` returns succeeds and moves the
position to 3, and the value returned is 0, not 3. -/
theorem seek_impl_returns_zero_not_cursor :
    ((retro_vfs_file_open_impl posix64 (Host.closed (some hello)) 1 0).bind fun o =>
      (retro_vfs_file_seek_impl posix64 o.host o.handle 3 SEEK_SET).bind fun r =>
        Outcome.done (o.handle.isSome, r.ret, r.host.fpos)) = Outcome.done (true, 0, 3)
    ∧ ((retro_vfs_file_open_impl posix64 (Host.closed (some hello)) 1
          RFILE_HINT_UNBUFFERED).bind fun o =>
      (retro_vfs_file_seek_impl posix64 o.host o.handle 3 SEEK_SET).bind fun r =>
        Outcome.done (o.handle.isSome, r.ret, r.host.offset)) = Outcome.done (true, 0, 3) := by
  decide

/-- C4 (amended): on the buffered backend `retro_vfs_file_seek_impl` returns the status
of `fseek(fp, (long)offset, whence)`, 0 when it succeeds and -1 when it fails; on the
unbuffered-descriptor backend it returns 0 when `lseek(fd, offset, whence)` succeeds,
whatever offset `lseek` reports, and -1 when `lseek` fails; in both the host is left as
the call leaves it.  On the memory-mapped backend `seek(Set, offset)` and
`seek(Cur, offset)` return -1 when rejected and the resulting cursor (when it is below
`2 ^ 63`) otherwise. -/
theorem seek_impl_return_convention (P : Platform) (h : Host)
    (stream : libretro_vfs_implementation_file) (offset whence : Int)
    (ho0 : -2 ^ 63 ≤ offset) (ho1 : offset < 2 ^ 63) :
    (stream.hints &&& RFILE_HINT_UNBUFFERED = 0 → stream.fp = true → h.fp = true →
      ∃ r, retro_vfs_file_seek_impl P h (some stream) offset whence = Outcome.done r
        ∧ r.stream = some stream
        ∧ r.host = (P.os_fseek h (to_signed P.LONG_BITS offset) whence).2
        ∧ ((P.os_fseek h (to_signed P.LONG_BITS offset) whence).1 = true → r.ret = 0)
        ∧ ((P.os_fseek h (to_signed P.LONG_BITS offset) whence).1 = false → r.ret = -1))
    ∧ (stream.hints &&& RFILE_HINT_UNBUFFERED ≠ 0 →
      ¬ (stream.mapped ≠ MapPtr.NULL
        ∧ stream.hints &&& P.RETRO_VFS_FILE_ACCESS_HINT_MEMORY_MAP ≠ 0) →
      ∃ r, retro_vfs_file_seek_impl P h (some stream) offset whence = Outcome.done r
        ∧ r.stream = some stream
        ∧ r.host = (P.os_lseek h stream.fd offset whence).2
        ∧ (0 ≤ (P.os_lseek h stream.fd offset whence).1 → r.ret = 0)
        ∧ ((P.os_lseek h stream.fd offset whence).1 < 0 → r.ret = -1))
    ∧ (stream.hints &&& RFILE_HINT_UNBUFFERED ≠ 0 → stream.mapped ≠ MapPtr.NULL →
      stream.hints &&& P.RETRO_VFS_FILE_ACCESS_HINT_MEMORY_MAP ≠ 0 →
      stream.mappos < 2 ^ 64 →
      (whence = SEEK_SET →
        (offset < 0 → retro_vfs_file_seek_impl P h (some stream) offset whence
            = Outcome.done { ret := -1, host := h, stream := some stream })
        ∧ (0 ≤ offset → retro_vfs_file_seek_impl P h (some stream) offset whence
            = Outcome.done { ret := offset, host := h,
                             stream := some { stream with mappos := offset.toNat } }))
      ∧ (whence = SEEK_CUR →
        ((stream.mappos : Int) + offset < 0 ∨ 2 ^ 64 ≤ (stream.mappos : Int) + offset →
          retro_vfs_file_seek_impl P h (some stream) offset whence
            = Outcome.done { ret := -1, host := h, stream := some stream })
        ∧ (0 ≤ (stream.mappos : Int) + offset → (stream.mappos : Int) + offset < 2 ^ 63 →
          retro_vfs_file_seek_impl P h (some stream) offset whence
            = Outcome.done
              { ret := (stream.mappos : Int) + offset, host := h,
                stream := some
                  { stream with mappos := ((stream.mappos : Int) + offset).toNat } }))) := by
  refine ⟨?_, ?_, ?_⟩
  · intro hb hfp hhfp
    unfold retro_vfs_file_seek_impl retro_vfs_file_seek_internal
    simp only [if_pos hb, fseek, hfp, hhfp, Bool.true_eq_false, or_self, if_false]
    refine ⟨_, rfl, rfl, rfl, ?_, ?_⟩
    · intro hok
      simp only [hok, if_true]
    · intro hko
      simp only [hko, Bool.false_eq_true, if_false]
  · intro hu hn
    unfold retro_vfs_file_seek_impl retro_vfs_file_seek_internal
    simp only [if_neg hu, if_neg hn, lseek]
    by_cases hneg : (P.os_lseek h stream.fd offset whence).1 < 0
    · rw [if_pos hneg]
      exact ⟨_, rfl, rfl, rfl, fun h0 => absurd hneg (not_lt.mpr h0), fun _ => rfl⟩
    · rw [if_neg hneg]
      exact ⟨_, rfl, rfl, rfl, fun _ => rfl, fun h1 => absurd h1 hneg⟩
  · intro hu hp hm hc
    constructor
    · intro hw
      subst hw
      exact mapped_seek_set_spec P h stream offset hu hp hm ho1
    · intro hw
      subst hw
      have hl := mapped_seek_cur_spec P h stream offset hu hp hm hc ho0 ho1
      refine ⟨hl.1, fun h0 h1 => ?_⟩
      have e := hl.2 h0 (by omega)
      rw [to_int64_small _ h0 h1] at e
      exact e

/-- Witness of C4 (amended): `seek(Set, 4)` on an unbuffered-descriptor handle, on a host
whose `lseek` reports the new offset 4: the call returns 0 and leaves the descriptor at
offset 4. -/
theorem seek_impl_return_convention_witness :
    (posix64.os_lseek host10 unbuffered10.fd 4 SEEK_SET).1 = 4
      ∧ ∃ r, retro_vfs_file_seek_impl posix64 host10 (some unbuffered10) 4 SEEK_SET
          = Outcome.done r
        ∧ r.ret = 0 ∧ r.host.offset = 4 := by
  obtain ⟨r, hr, _, hh, hok, _⟩ :=
    (seek_impl_return_convention posix64 host10 unbuffered10 4 SEEK_SET (by decide)
      (by decide)).2.1 (by decide) (by decide)
  refine ⟨by decide, r, hr, hok (by decide), ?_⟩
  rw [hh]
  decide

/-! ## C5: the cursor of a memory-mapped handle and the mapped size -/

/-- C5 (as stated, refuted): on a handle over a 10-byte mapping with the cursor at 0,
`seek(Set, 11)` does not fail: it returns 11 and moves the cursor to 11, past the
mapped size; likewise `seek(Set, 1)` on the handle `open` returns for a mapped file
(mapped size 0) moves the cursor to 1. -/
theorem seek_set_mapped_past_end :
    retro_vfs_file_seek_impl posix64 host10 (some (mapped10 0)) 11 SEEK_SET
      = Outcome.done { ret := 11, host := host10, stream := some (mapped10 11) }
    ∧ ¬ (mapped10 11).mappos ≤ (mapped10 11).mapsize
    ∧ ((retro_vfs_file_open_impl posix64_mmap (Host.closed (some hello)) 1 1).bind fun o =>
      (retro_vfs_file_seek_impl posix64_mmap o.host o.handle 1 SEEK_SET).bind fun r =>
        Outcome.done (r.ret, r.stream.map fun s => (s.mappos, s.mapsize)))
      = Outcome.done (1, some (1, 0)) := by decide

/-- C5 (amended): `cursor ≤ mapped_size` holds for every handle `open` returns; on a
memory-mapped handle it is preserved by read and by write (which is rejected), and by
`seek(Set)` and `seek(Cur)` to a target inside `[0, mapped_size]`, which move the cursor
to the target; `seek(Set)` and `seek(Cur)` to a negative target fail and leave the
cursor; `seek(Set)` to a target above `mapped_size` is accepted and moves the cursor
there, after which a read returns -1. -/
theorem mapped_cursor_bounds (P : Platform) (h : Host)
    (stream : libretro_vfs_implementation_file)
    (hu : stream.hints &&& RFILE_HINT_UNBUFFERED ≠ 0)
    (hp : stream.mapped ≠ MapPtr.NULL)
    (hm : stream.hints &&& P.RETRO_VFS_FILE_ACCESS_HINT_MEMORY_MAP ≠ 0)
    (hS : stream.mapsize < 2 ^ 63) (hinv : stream.mappos ≤ stream.mapsize) :
    (∀ h0 mode hints r s, retro_vfs_file_open_impl P h0 mode hints = Outcome.done r →
      r.handle = some s → s.mappos ≤ s.mapsize)
    ∧ (∀ b len r, retro_vfs_file_read_impl P h (some stream) b len = Outcome.done r →
      ∃ s1, r.stream = some s1 ∧ s1.mapsize = stream.mapsize ∧ s1.mappos ≤ s1.mapsize)
    ∧ (∀ s len, retro_vfs_file_write_impl P h (some stream) s len
      = Outcome.done { ret := -1, host := h, stream := some stream })
    ∧ (∀ t : Int, 0 ≤ t → t ≤ stream.mapsize →
      retro_vfs_file_seek_impl P h (some stream) t SEEK_SET
        = Outcome.done { ret := t, host := h, stream := some { stream with mappos := t.toNat } })
    ∧ (∀ d : Int, 0 ≤ (stream.mappos : Int) + d → (stream.mappos : Int) + d ≤ stream.mapsize →
      retro_vfs_file_seek_impl P h (some stream) d SEEK_CUR
        = Outcome.done
          { ret := (stream.mappos : Int) + d, host := h,
            stream := some { stream with mappos := ((stream.mappos : Int) + d).toNat } })
    ∧ (∀ t : Int, t < 0 →
      retro_vfs_file_seek_impl P h (some stream) t SEEK_SET
        = Outcome.done { ret := -1, host := h, stream := some stream })
    ∧ (∀ d : Int, -2 ^ 63 ≤ d → (stream.mappos : Int) + d < 0 →
      retro_vfs_file_seek_impl P h (some stream) d SEEK_CUR
        = Outcome.done { ret := -1, host := h, stream := some stream })
    ∧ (∀ t : Int, (stream.mapsize : Int) < t → t < 2 ^ 63 →
      retro_vfs_file_seek_impl P h (some stream) t SEEK_SET
          = Outcome.done
            { ret := t, host := h, stream := some { stream with mappos := t.toNat } }
        ∧ ∀ len, retro_vfs_file_read_impl P h (some { stream with mappos := t.toNat }) true len
          = Outcome.done { ret := -1, host := h,
                           stream := some { stream with mappos := t.toNat }, out := [] }) := by
  refine ⟨?_, ?_, ?_, ?_, ?_, ?_, ?_, ?_⟩
  · intro h0 mode hints r s hr hs
    have hf := open_impl_fields P h0 mode hints r s hr hs
    omega
  · intro b len r hr
    exact read_impl_keeps_bounds P h stream b len r (by omega) hinv hr
  · intro s len
    simp only [retro_vfs_file_write_impl, if_neg hu]
    rw [if_pos hm]
  · intro t h0 h1
    exact (mapped_seek_set_spec P h stream t hu hp hm (by omega)).2 h0
  · intro d h0 h1
    have e := (mapped_seek_cur_spec P h stream d hu hp hm (by omega) (by omega) (by omega)).2 h0
      (by omega)
    rw [to_int64_small _ h0 (by omega)] at e
    exact e
  · intro t hneg
    unfold retro_vfs_file_seek_impl retro_vfs_file_seek_internal
    simp only [if_neg hu, if_true]
    rw [if_pos ⟨hp, hm⟩, if_pos hneg]
  · intro d hd0 hneg
    exact (mapped_seek_cur_spec P h stream d hu hp hm (by omega) hd0 (by omega)).1 (Or.inl hneg)
  · intro t hgt hlt
    refine ⟨(mapped_seek_set_spec P h stream t hu hp hm hlt).2 (by omega), fun len => ?_⟩
    unfold retro_vfs_file_read_impl
    simp only [if_neg hu, Bool.true_eq_false, if_false]
    rw [if_pos hm, if_pos (show t.toNat > stream.mapsize by omega)]

/-- Witness of C5 (amended): on the 10-byte mapping with the cursor at 3, `seek(Set, 7)`
moves the cursor to 7. -/
theorem mapped_cursor_bounds_witness :
    retro_vfs_file_seek_impl posix64 host10 (some (mapped10 3)) 7 SEEK_SET
      = Outcome.done { ret := 7, host := host10, stream := some (mapped10 7) } :=
  (mapped_cursor_bounds posix64 host10 (mapped10 3) (by decide) (by decide) (by decide)
    (by decide) (by decide)).2.2.2.1 7 (by decide) (by decide)

/-! ## C10: the mapped size recorded by open -/

/-- C10: a 5-byte file opened with mode Read and the memory-map hint, on a platform
where `mmap` succeeds for every length: the mapped size recorded in the handle is 0,
the mapping is empty, and on a platform where `mmap` of length 0 fails the handle
falls back to the plain descriptor, again with mapped size 0. -/
theorem open_mmap_mapsize_zero :
    ((retro_vfs_file_open_impl posix64_mmap (Host.closed (some hello)) 1 1).bind fun o =>
      Outcome.done (o.handle.map fun s => (s.mapsize, s.mapped, s.hints)))
      = Outcome.done (some (0, MapPtr.region [], 257))
    ∧ ((retro_vfs_file_open_impl posix64 (Host.closed (some hello)) 1 1).bind fun o =>
      Outcome.done (o.handle.map fun s => (s.mapsize, s.mapped, s.hints)))
      = Outcome.done (some (0, MapPtr.MAP_FAILED, 256)) := by
  decide

end Vfs
